import Mathlib

/-!
Verification of the rinit service-supervision stack.

Shallow embedding of the rinit sources and proofs about them.

* `src/ks-svc/src/live_service.rs` — the per-service runtime cell
  (`LiveService`, `ServiceStatus`, `change_status`).
* `src/ks-svc/src/live_service_graph.rs` — the live service graph
  (`LiveServiceGraph::new`, `get_status`).
* `ctl/src/command/enable_command.rs` / `disable_command.rs` — the control
  tool commands that edit the persisted dependency graph.
* `svc/src/supervision/exec_script.rs` — script launching: executable and
  argument resolution and environment merging.

Conventions: machine integers and timestamps are `Nat`; Rust `Result` is
`Except`; a Rust panic (`unwrap`/`expect` on an empty option) is modelled by
returning `none`; asynchronous waiting is modelled by passing the value that
the wait would observe as an explicit argument; filesystem state is the
content of the graph file.
-/

namespace Rinit

/-- Status enum `ServiceStatus` from `ks-svc/src/live_service.rs`. -/
inductive ServiceStatus
  | Reset
  | Up
  | Down
  | Starting
  | Stopping
deriving DecidableEq, Repr

/-- The part of `kansei_core::graph::Node` the embedded code consults:
a node carries a service with a name (`el.node.name()`). -/
structure Node where
  name : String
deriving DecidableEq, Repr

/-- The pure state of `LiveService` (`ks-svc/src/live_service.rs`):
current status, last recorded status and the timestamp of the most recent
change.  The condition variable `wait` has no persistent state; its
`notify_all` call is reported as an event by `change_status`. -/
structure LiveService where
  node : Node
  status : ServiceStatus
  last_status : Option ServiceStatus
  status_changed : Option Nat
deriving DecidableEq, Repr

/-- Constructor `LiveService::new`: status starts at `Reset`, `last_status` and
`status_changed` start empty. -/
def LiveService.new (n : Node) : LiveService :=
  { node := n, status := .Reset, last_status := none, status_changed := none }

/-- Embedding of `LiveService::change_status`.  The match mirrors the source: a current
status of `Starting` or `Stopping` is skipped, any other current status is
recorded into `last_status`; then the status is replaced, the timestamp is
stamped with the current time, and `wait.notify_all()` runs.  Returns the
updated cell together with a flag recording that the broadcast happened. -/
def LiveService.change_status (s : LiveService) (new_status : ServiceStatus)
    (now : Nat) : LiveService × Bool :=
  let last_status :=
    match s.status with
    | .Starting => s.last_status
    | .Stopping => s.last_status
    | _ => some s.status
  ({ s with
      status := new_status
      last_status := last_status
      status_changed := some now },
   true)

/-- A sequence of `change_status` calls applied from left to right; each call
carries the status to set and the current time at the call. -/
def run_changes (s : LiveService) (calls : List (ServiceStatus × Nat)) :
    LiveService :=
  calls.foldl (fun st c => (st.change_status c.1 c.2).1) s

/-- Modelled from the spec: `LiveService::get_status` is called by
`LiveServiceGraph::get_status` but its definition is not among the given
sources; §4.2 of the spec describes it as a non-blocking read that returns
the current status when it is terminal (`Up` or `Down`) and `None`
otherwise. -/
def LiveService.get_status (s : LiveService) : Option ServiceStatus :=
  if s.status = .Up ∨ s.status = .Down then some s.status else none

/-- A `HashMap` built by `collect` from a list of key/value pairs: entries
are inserted left to right, a later binding for a key overwrites an earlier
one. -/
def collectMap (ps : List (String × Nat)) : String → Option Nat :=
  ps.foldl (fun m p => fun k => if k = p.1 then some p.2 else m k)
    (fun _ => none)

/-- Structure `LiveServiceGraph` from `ks-svc/src/live_service_graph.rs`: the
`indexes` name→position map and the vector of live cells. -/
structure LiveServiceGraph where
  indexes : String → Option Nat
  live_services : List LiveService

/-- The graph-construction error kind described by the spec
(GraphInvariantViolation). -/
inductive GraphError
  | invariantViolation
deriving DecidableEq, Repr

/-- Embedding of `LiveServiceGraph::new`: build one live cell per node of the persisted
graph in iteration order and collect `indexes` from name to position.  The
source performs no validation of any kind and always returns `Ok`. -/
def LiveServiceGraph.new (graph : List Node) :
    Except GraphError LiveServiceGraph :=
  let nodes := graph.map LiveService.new
  Except.ok
    { indexes := collectMap (nodes.enum.map fun p => (p.2.node.name, p.1))
      live_services := nodes }

/-- Embedding of `LiveServiceGraph::get_status`.  Here `after_wait` is the status the service
holds at the moment the status-change notification wakes the caller (the
source then re-reads `get_status` and discards the value).  A panic —
`expect` on a missing index, `unwrap` on a missing cell, or the final
`status.unwrap()` on the pre-wait `None` — is modelled as `none`. -/
def LiveServiceGraph.get_status (g : LiveServiceGraph) (name : String)
    (after_wait : ServiceStatus) : Option ServiceStatus :=
  match g.indexes name with
  | none => none
  | some i =>
    match g.live_services[i]? with
    | none => none
    | some dep_service =>
      let status := dep_service.get_status
      match status with
      | some s => some s
      | none =>
        -- notifier.notified().await, then the re-read whose value is dropped
        let _discarded :=
          LiveService.get_status { dep_service with status := after_wait }
        -- status.unwrap(): `status` is still the pre-wait value, `none` here
        status

/-! Control tool: enable and disable commands -/

/-- Modelled from the spec: `RunLevel` lives in rinit-service, outside the
given sources; §GLOSSARY describes it as a tag partitioning services, and the
commands only compare it for equality. -/
abbrev RunLevel := String

/-- The part of a dependency-graph node the commands consult: its service's
runlevel (`node.service.runlevel()`). -/
structure GraphNode where
  runlevel : RunLevel
deriving DecidableEq, Repr

/-- The `DependencyGraph` type (rinit-service): a map from service name to node,
modelled as an association list with unique keys. -/
structure DependencyGraph where
  nodes : List (String × GraphNode)
deriving DecidableEq, Repr

/-- Embedding of `DependencyGraph::new()`: the empty graph. -/
def DependencyGraph.new : DependencyGraph := { nodes := [] }

/-- Lookup `graph.nodes.get(service)`. -/
def DependencyGraph.nodesGet (g : DependencyGraph) (s : String) :
    Option GraphNode :=
  g.nodes.lookup s

/-- Error kinds of the command embeddings (the `anyhow` messages of the
sources, as a closed enumeration). -/
inductive CmdError
  | duplicatedService
  | graphNotInitialized
  | notEnabled (service : String)
  | wrongRunLevel (service : String)
  | disableFailed
  | parseFailed
  | addFailed
  | sendFailed
deriving DecidableEq, Repr

/-- Modelled from the spec: `DependencyGraph::disable_services` lives in
rinit-service, outside the given sources; §6 of the spec says disable
removes the named services from the graph. -/
def DependencyGraph.disable_services (g : DependencyGraph)
    (services : List String) : Except CmdError DependencyGraph :=
  Except.ok { nodes := g.nodes.filter fun p => !(services.contains p.1) }

/-- The duplicate scan both commands run first, from the sources:
`(1..services.len()).any(|i| services[i..].contains(&services[i - 1]))`. -/
def duplicated_service_scan (services : List String) : Bool :=
  (List.range' 1 (services.length - 1)).any fun i =>
    (services.drop i).contains (services.getD (i - 1) "")

/-- Filesystem state the commands touch: the content of the graph file
(`none` when the file does not exist).  Reading and deserializing an
existing file is modelled as always succeeding, the file holding the graph
value itself. -/
structure FsState where
  graph_file : Option DependencyGraph
deriving DecidableEq, Repr

/-- Observable outcome of a command run: the returned `Result`, the final
filesystem state, whether a `ReloadGraph` request was sent over IPC, whether
an unreachable daemon was reported on stderr, and whether the graph file's
parent directory was created. -/
structure CmdOutcome where
  result : Except CmdError Unit
  fs : FsState
  sent_reload : Bool
  stderr_unreachable : Bool
  created_parent_dir : Bool

/-- Embedding of `EnableCommand::run` (`ctl/src/command/enable_command.rs`).
`parse_result` stands for the outcome of `parse_services` (rinit-parser,
outside the given sources) and `add_services` for
`DependencyGraph::add_services` (rinit-service, outside the given sources);
both are passed as oracles because only their success or failure matters to
the command's control flow.  This version of the command reads no runlevel
and performs no IPC. -/
def enable_run (services : List String) (fs : FsState)
    (parse_result : Except CmdError Unit)
    (add_services : DependencyGraph → List String →
      Except CmdError DependencyGraph) : CmdOutcome :=
  if duplicated_service_scan services then
    { result := .error .duplicatedService, fs := fs, sent_reload := false
      stderr_unreachable := false, created_parent_dir := false }
  else
    -- read the graph file when it exists, otherwise DependencyGraph::new()
    let graph :=
      match fs.graph_file with
      | some g => g
      | none => DependencyGraph.new
    match parse_result with
    | .error e =>
      { result := .error e, fs := fs, sent_reload := false
        stderr_unreachable := false, created_parent_dir := false }
    | .ok _ =>
      match add_services graph services with
      | .error e =>
        { result := .error e, fs := fs, sent_reload := false
          stderr_unreachable := false, created_parent_dir := false }
      | .ok graph2 =>
        -- fs::create_dir_all(parent) then fs::write, then return Ok(())
        { result := .ok (), fs := { graph_file := some graph2 }
          sent_reload := false, stderr_unreachable := false
          created_parent_dir := true }

/-- The check loop of the atomic branch of `DisableCommand::run`: for each
service in order, `ensure` it is present in the graph and that its runlevel
equals the requested one. -/
def check_services (g : DependencyGraph) (services : List String)
    (rl : RunLevel) : Except CmdError Unit :=
  match services with
  | [] => .ok ()
  | s :: rest =>
    match g.nodesGet s with
    | none => .error (.notEnabled s)
    | some n =>
      if n.runlevel = rl then check_services g rest rl
      else .error (.wrongRunLevel s)

/-- The non-atomic branch of `DisableCommand::run`: `try_for_each` checks
and disables one service at a time, mutating the in-memory graph. -/
def disable_each (g : DependencyGraph) (services : List String)
    (rl : RunLevel) : Except CmdError DependencyGraph :=
  match services with
  | [] => .ok g
  | s :: rest =>
    match g.nodesGet s with
    | none => .error (.notEnabled s)
    | some n =>
      if n.runlevel = rl then
        match g.disable_services [s] with
        | .error _ => .error .disableFailed
        | .ok g2 => disable_each g2 rest rl
      else .error (.wrongRunLevel s)

/-- The in-memory graph transformation `DisableCommand::run` computes before
writing the file: the atomic branch checks every service first and then
disables them all at once; the non-atomic branch interleaves checks and
removals. -/
def disable_apply (g : DependencyGraph) (services : List String)
    (atomic : Bool) (rl : RunLevel) : Except CmdError DependencyGraph :=
  if atomic then
    match check_services g services rl with
    | .error e => .error e
    | .ok _ =>
      match g.disable_services services with
      | .error _ => .error .disableFailed
      | .ok g2 => .ok g2
  else
    disable_each g services rl

/-- Embedding of `DisableCommand::run` (`ctl/src/command/disable_command.rs`).
`can_connect` tells whether `AsyncConnection::new_host_address()` succeeds
and `send_result` stands for the reply of `send_request` when it does.  The
file is written only after `disable_apply` succeeds; the IPC attempt comes
after the write: on a connected daemon the request is sent (its failure is
propagated by `??`), on a failed connection the command prints to stderr and
still returns `Ok`. -/
def disable_run (services : List String) (atomic : Bool) (rl : RunLevel)
    (fs : FsState) (can_connect : Bool)
    (send_result : Except CmdError Unit) : CmdOutcome :=
  if duplicated_service_scan services then
    { result := .error .duplicatedService, fs := fs, sent_reload := false
      stderr_unreachable := false, created_parent_dir := false }
  else
    match fs.graph_file with
    | none =>
      { result := .error .graphNotInitialized, fs := fs, sent_reload := false
        stderr_unreachable := false, created_parent_dir := false }
    | some graph =>
      match disable_apply graph services atomic rl with
      | .error e =>
        { result := .error e, fs := fs, sent_reload := false
          stderr_unreachable := false, created_parent_dir := false }
      | .ok graph2 =>
        let fs2 : FsState := { graph_file := some graph2 }
        if can_connect then
          match send_result with
          | .ok _ =>
            { result := .ok (), fs := fs2, sent_reload := true
              stderr_unreachable := false, created_parent_dir := false }
          | .error e =>
            { result := .error e, fs := fs2, sent_reload := true
              stderr_unreachable := false, created_parent_dir := false }
        else
          { result := .ok (), fs := fs2, sent_reload := false
            stderr_unreachable := true, created_parent_dir := false }

/-! Script launching: exec_script -/

/-- The `ScriptPrefix` enum from rinit-service, as matched by `exec_script`. -/
inductive ScriptPfx
  | Bash
  | Path
  | Sh
deriving DecidableEq, Repr

/-- The fields of `Script` that `exec_script`'s argument resolution reads:
the prefix (Rust field `prefix`, renamed here) and the `execute` string. -/
structure Script where
  pfx : ScriptPfx
  execute : String
deriving DecidableEq, Repr

/-- Rust `char::is_alphabetic`; it agrees with `Char.isAlpha` on ASCII. -/
def is_alphabetic (c : Char) : Bool := c.isAlpha

/-- Accumulator-based splitter behind `split_whitespace`: `cur` holds the
characters of the current token in reverse. -/
def words_aux : List Char → List Char → List (List Char)
  | [], cur => if cur.isEmpty then [] else [cur.reverse]
  | c :: rest, cur =>
    if c.isWhitespace then
      if cur.isEmpty then words_aux rest []
      else cur.reverse :: words_aux rest []
    else
      words_aux rest (c :: cur)

/-- Rust `str::split_whitespace`: the whitespace-separated tokens of a
string, with no empty tokens. -/
def split_whitespace (s : String) : List String :=
  (words_aux s.toList []).map fun cs => String.mk cs

/-- The `(exe, args)` resolution at the top of `exec_script`
(`svc/src/supervision/exec_script.rs`): Bash and Sh run the shell with
`-c execute`; Path takes the first whitespace token of `execute` as the
executable when it is all-alphabetic (`unwrap_or("")` otherwise) and the
remaining tokens, in order, as the arguments. -/
def exec_resolve (script : Script) : String × List String :=
  match script.pfx with
  | .Bash => ("bash", ["-c", script.execute])
  | .Path =>
    match split_whitespace script.execute with
    | [] => ("", [])
    | w :: rest => (if w.toList.all is_alphabetic then w else "", rest)
  | .Sh => ("sh", ["-c", script.execute])

/-- One insertion into the environment map, keyed by variable name. -/
def env_insert (m : String → Option String) (kv : String × String) :
    String → Option String :=
  fun k => if k = kv.1 then some kv.2 else m k

/-- Embedding of `collect::<HashMap<String, String>>()` over an iterator of key/value
pairs: entries are inserted left to right, later bindings override earlier
ones. -/
def collect_env (ps : List (String × String)) : String → Option String :=
  ps.foldl env_insert (fun _ => none)

/-- The environment merge in `exec_script`:
`env::vars().chain(env.contents.clone().into_iter()).collect()` — the
process environment followed by the service environment, collected into a
map where the later (service) entries win. -/
def merged_env (proc_env svc_env : List (String × String)) :
    String → Option String :=
  collect_env (proc_env ++ svc_env)

/-! Helper lemmas -/

/-- One `change_status` call keeps `last_status` away from the transient
statuses: the recorded value is either the previous `last_status` or a
current status that the match has checked is not `Starting`/`Stopping`. -/
theorem change_status_last_status_not_transient (s : LiveService)
    (new_status : ServiceStatus) (now : Nat)
    (h : s.last_status ≠ some .Starting ∧ s.last_status ≠ some .Stopping) :
    (s.change_status new_status now).1.last_status ≠ some .Starting ∧
      (s.change_status new_status now).1.last_status ≠ some .Stopping := by
  obtain ⟨h1, h2⟩ := h
  cases hs : s.status <;>
    simp [LiveService.change_status, hs, h1, h2]

/-- The `last_status` invariant is preserved along any sequence of
`change_status` calls. -/
theorem run_changes_last_status_not_transient (calls : List (ServiceStatus × Nat))
    (s : LiveService)
    (h : s.last_status ≠ some .Starting ∧ s.last_status ≠ some .Stopping) :
    (run_changes s calls).last_status ≠ some .Starting ∧
      (run_changes s calls).last_status ≠ some .Stopping := by
  induction calls generalizing s with
  | nil => exact h
  | cons c rest ih =>
    exact ih _ (change_status_last_status_not_transient s c.1 c.2 h)

/-- The Rust duplicate scan fires exactly on lists that repeat an element. -/
theorem duplicated_service_scan_iff (ss : List String) :
    duplicated_service_scan ss = true ↔ ¬ ss.Nodup := by
  unfold duplicated_service_scan
  rw [List.any_eq_true]
  constructor
  · rintro ⟨i, hmem, hcont⟩
    rw [List.mem_range'_1] at hmem
    have h1 : 1 ≤ i := hmem.1
    have h2 : i < 1 + (ss.length - 1) := hmem.2
    have hcontm : ss.getD (i - 1) "" ∈ ss.drop i := by
      simpa [List.contains] using hcont
    rw [List.mem_iff_getElem?] at hcontm
    obtain ⟨j, hj⟩ := hcontm
    rw [List.getElem?_drop] at hj
    obtain ⟨hjlen, hjval⟩ := List.getElem?_eq_some_iff.mp hj
    have h1len : i - 1 < ss.length := by omega
    intro hnodup
    rw [List.nodup_iff_getElem?_ne_getElem?] at hnodup
    refine hnodup (i - 1) (i + j) (by omega) hjlen ?_
    rw [List.getElem?_eq_getElem h1len, List.getElem?_eq_getElem hjlen, hjval]
    simp [List.getD_eq_getElem?_getD, List.getElem?_eq_getElem h1len]
  · intro hnd
    rw [List.nodup_iff_getElem?_ne_getElem?] at hnd
    push_neg at hnd
    obtain ⟨a, b, hab, hb, heq⟩ := hnd
    have ha : a < ss.length := by omega
    rw [List.getElem?_eq_getElem ha, List.getElem?_eq_getElem hb] at heq
    have hvals : ss[a] = ss[b] := Option.some.inj heq
    refine ⟨a + 1, ?_, ?_⟩
    · rw [List.mem_range'_1]
      omega
    · have hgd : ss.getD (a + 1 - 1) "" = ss[a] := by
        simp [List.getD_eq_getElem?_getD, List.getElem?_eq_getElem ha]
      have hidx : a + 1 + (b - (a + 1)) = b := by omega
      have hdropj : (ss.drop (a + 1))[b - (a + 1)]? = some (ss[b]) := by
        rw [List.getElem?_drop, hidx, List.getElem?_eq_getElem hb]
      have hmemdrop : ss.getD (a + 1 - 1) "" ∈ ss.drop (a + 1) := by
        rw [List.mem_iff_getElem?]
        exact ⟨b - (a + 1), by rw [hdropj, hgd, hvals]⟩
      simpa [List.contains] using hmemdrop

/-- If some requested service is missing from the graph or carries the wrong
runlevel, the check loop of the atomic branch fails. -/
theorem check_services_error_of_bad (g : DependencyGraph) (rl : RunLevel)
    (services : List String)
    (hbad : ∃ s ∈ services, g.nodesGet s = none ∨
      ∃ n, g.nodesGet s = some n ∧ n.runlevel ≠ rl) :
    (check_services g services rl).isOk = false := by
  induction services with
  | nil => simp at hbad
  | cons s rest ih =>
    obtain ⟨t, htmem, htbad⟩ := hbad
    rcases List.mem_cons.mp htmem with rfl | htrest
    · rcases htbad with hnone | ⟨n, hsome, hne⟩
      · simp [check_services, hnone, Except.isOk, Except.toBool]
      · simp [check_services, hsome, hne, Except.isOk, Except.toBool]
    · cases hg : g.nodesGet s with
      | none => simp [check_services, hg, Except.isOk, Except.toBool]
      | some n =>
        by_cases hr : n.runlevel = rl
        · simpa [check_services, hg, hr] using ih ⟨t, htrest, htbad⟩
        · simp [check_services, hg, hr, Except.isOk, Except.toBool]

/-- The atomic check loop never produces the duplicated-service error. -/
theorem check_services_error_kind (g : DependencyGraph) (rl : RunLevel) :
    ∀ (services : List String) (e : CmdError),
      check_services g services rl = .error e → e ≠ .duplicatedService := by
  intro services
  induction services with
  | nil => intro e he; simp [check_services] at he
  | cons s rest ih =>
    intro e he
    cases hg : g.nodesGet s with
    | none =>
      simp [check_services, hg] at he
      simp [← he]
    | some n =>
      by_cases hr : n.runlevel = rl
      · rw [check_services, hg] at he
        simp [hr] at he
        exact ih e he
      · simp [check_services, hg, hr] at he
        simp [← he]

/-- The non-atomic disable loop never produces the duplicated-service
error. -/
theorem disable_each_error_kind (rl : RunLevel) :
    ∀ (services : List String) (g : DependencyGraph) (e : CmdError),
      disable_each g services rl = .error e → e ≠ .duplicatedService := by
  intro services
  induction services with
  | nil => intro g e he; simp [disable_each] at he
  | cons s rest ih =>
    intro g e he
    cases hg : g.nodesGet s with
    | none =>
      simp [disable_each, hg] at he
      simp [← he]
    | some n =>
      by_cases hr : n.runlevel = rl
      · cases hd : g.disable_services [s] with
        | error e2 =>
          simp [disable_each, hg, hr, hd] at he
          simp [← he]
        | ok g2 =>
          rw [disable_each, hg] at he
          simp [hr, hd] at he
          exact ih g2 e he
      · simp [disable_each, hg, hr] at he
        simp [← he]

/-- The function `disable_apply` never produces the duplicated-service error. -/
theorem disable_apply_error_kind (g : DependencyGraph) (services : List String)
    (atomic : Bool) (rl : RunLevel) (e : CmdError)
    (h : disable_apply g services atomic rl = .error e) :
    e ≠ .duplicatedService := by
  cases atomic with
  | false =>
    rw [disable_apply] at h
    simp at h
    exact disable_each_error_kind rl services g e h
  | true =>
    rw [disable_apply] at h
    simp at h
    cases hc : check_services g services rl with
    | error e2 =>
      rw [hc] at h
      simp at h
      rw [← h]
      exact check_services_error_kind g rl services e2 hc
    | ok u =>
      rw [hc] at h
      cases hd : g.disable_services services with
      | error e2 => rw [hd] at h; simp at h; simp [← h]
      | ok g2 => rw [hd] at h; simp at h

/-- The enable command never performs any IPC: `sent_reload` is false on
every path. -/
theorem enable_run_never_sends (services : List String) (fs : FsState)
    (parse_result : Except CmdError Unit)
    (add_services : DependencyGraph → List String →
      Except CmdError DependencyGraph) :
    (enable_run services fs parse_result add_services).sent_reload = false := by
  unfold enable_run
  repeat' split
  all_goals try rfl
  all_goals (dsimp only []; split <;> rfl)

/-- With no duplicate in the argument list, `enable_run` never reports the
duplicated-service error, provided its two oracles do not produce that error
themselves. -/
theorem enable_run_no_dup_error (services : List String) (fs : FsState)
    (parse_result : Except CmdError Unit)
    (add_services : DependencyGraph → List String →
      Except CmdError DependencyGraph)
    (hscan : duplicated_service_scan services = false)
    (hp : parse_result ≠ .error .duplicatedService)
    (ha : ∀ g, add_services g services ≠ .error .duplicatedService) :
    (enable_run services fs parse_result add_services).result
      ≠ .error .duplicatedService := by
  unfold enable_run
  rw [hscan]
  simp only [Bool.false_eq_true, if_false]
  cases hpr : parse_result with
  | error e =>
    have : e ≠ .duplicatedService := fun hh => hp (by rw [hpr, hh])
    simp [this]
  | ok u =>
    cases hadd : add_services
        (match fs.graph_file with
          | some g => g
          | none => DependencyGraph.new) services with
    | error e =>
      have : e ≠ .duplicatedService := fun hh => ha _ (by rw [hadd, hh])
      simp [hadd, this]
    | ok g2 => simp [hadd]

/-- With no duplicate in the argument list, `disable_run` never reports the
duplicated-service error, provided the IPC reply is not that error. -/
theorem disable_run_no_dup_error (services : List String) (atomic : Bool)
    (rl : RunLevel) (fs : FsState) (can_connect : Bool)
    (send_result : Except CmdError Unit)
    (hscan : duplicated_service_scan services = false)
    (hs : send_result ≠ .error .duplicatedService) :
    (disable_run services atomic rl fs can_connect send_result).result
      ≠ .error .duplicatedService := by
  unfold disable_run
  rw [hscan]
  simp only [Bool.false_eq_true, if_false]
  cases hfile : fs.graph_file with
  | none => simp
  | some graph =>
    cases happ : disable_apply graph services atomic rl with
    | error e =>
      have := disable_apply_error_kind graph services atomic rl e happ
      simp [happ, this]
    | ok graph2 =>
      cases can_connect with
      | false => simp [happ]
      | true =>
        cases hsend : send_result with
        | ok u => simp [happ, hsend]
        | error e =>
          have : e ≠ .duplicatedService := fun hh => hs (by rw [hsend, hh])
          simp [happ, hsend, this]

/-- With a duplicate in the argument list, both commands stop at the scan
with the duplicated-service error. -/
theorem commands_dup_error_of_scan (services : List String) (fs : FsState)
    (parse_result : Except CmdError Unit)
    (add_services : DependencyGraph → List String →
      Except CmdError DependencyGraph)
    (atomic : Bool) (rl : RunLevel) (can_connect : Bool)
    (send_result : Except CmdError Unit)
    (hscan : duplicated_service_scan services = true) :
    (enable_run services fs parse_result add_services).result
        = .error .duplicatedService ∧
      (disable_run services atomic rl fs can_connect send_result).result
        = .error .duplicatedService := by
  constructor
  · unfold enable_run
    rw [hscan]
    rfl
  · unfold disable_run
    rw [hscan]
    rfl

/-- Folding insertions over pairs whose keys avoid `k` leaves the map
unchanged at `k`. -/
theorem foldl_env_insert_not_mem (xs : List (String × String))
    (m : String → Option String) (k : String)
    (h : k ∉ xs.map Prod.fst) : (xs.foldl env_insert m) k = m k := by
  induction xs generalizing m with
  | nil => rfl
  | cons x xs ih =>
    simp only [List.map_cons, List.mem_cons, not_or] at h
    rw [List.foldl_cons, ih _ h.2]
    simp [env_insert, h.1]

/-- When the keys are pairwise distinct, folding insertions returns the
value bound to `k` whenever the list binds `k`. -/
theorem foldl_env_insert_mem (xs : List (String × String))
    (m : String → Option String) (k v : String)
    (hnd : (xs.map Prod.fst).Nodup) (h : (k, v) ∈ xs) :
    (xs.foldl env_insert m) k = some v := by
  induction xs generalizing m with
  | nil => cases h
  | cons x xs ih =>
    simp only [List.map_cons, List.nodup_cons] at hnd
    rw [List.foldl_cons]
    rcases List.mem_cons.mp h with heq | hmem
    · have hk : k ∉ xs.map Prod.fst := by
        rw [← heq] at hnd
        exact hnd.1
      rw [foldl_env_insert_not_mem xs _ k hk]
      rw [← heq]
      simp [env_insert]
    · exact ih _ hnd.2 hmem

/-! Claim theorems -/

/-- Claim C1 (code_bug): `LiveServiceGraph::get_status` is supposed to wait
for a notification and return the service's terminal status when the current
status is not terminal.  Evaluating the embedded source on a graph holding
one service `a` whose status is `Reset`, with the notification arriving once
the status is `Up`, the function instead reaches `status.unwrap()` on the
pre-wait `None` — a panic, modelled as `none` — rather than returning the
terminal status `Up`. -/
theorem get_status_panics_on_pending_status :
    LiveServiceGraph.get_status
        { indexes := collectMap [("a", 0)]
          live_services := [LiveService.new { name := "a" }] }
        "a" .Up = none := by
  rfl

/-- Claim C2, counterexample: starting from the initial state (status
`Reset`), a single `change_status(Starting)` call records `Reset` — a
non-terminal status — into `last_status`, because the source only skips
recording when the current status is `Starting` or `Stopping`. -/
theorem last_status_reset_counterexample :
    (run_changes (LiveService.new { name := "a" }) [(.Starting, 0)]).last_status
      = some .Reset := by
  rfl

/-- Claim C2, amended: for every sequence of `change_status` calls starting
from the initial state, `last_status` is always `None`, `Reset`, `Up` or
`Down`; it is never `Starting` and never `Stopping` (only the two transient
statuses are excluded from recording — `Reset` is recorded). -/
theorem last_status_never_starting_or_stopping (n : Node)
    (calls : List (ServiceStatus × Nat)) :
    (run_changes (LiveService.new n) calls).last_status ≠ some .Starting ∧
      (run_changes (LiveService.new n) calls).last_status ≠ some .Stopping := by
  refine run_changes_last_status_not_transient calls (LiveService.new n) ?_
  exact ⟨by simp [LiveService.new], by simp [LiveService.new]⟩

/-- Claim C3, counterexample: `LiveServiceGraph::new` applied to a graph
with two nodes both named `a` returns `Ok` — no duplicate detection, no
`GraphInvariantViolation` error. -/
theorem live_graph_new_duplicate_returns_ok :
    (LiveServiceGraph.new [{ name := "a" }, { name := "a" }]).isOk = true := by
  rfl

/-- Claim C3, amended: `LiveServiceGraph::new` returns a live graph
successfully for every input dependency graph, including one containing two
nodes with the same service name; it performs no duplicate detection and
never returns an error. -/
theorem live_graph_new_never_errors (graph : List Node) :
    (LiveServiceGraph.new graph).isOk = true := by
  rfl

/-- Claim C4, counterexample: a concrete `EnableCommand::run` invocation
that successfully writes the modified graph (it returns `Ok`) yet sends no
`ReloadGraph` request — the enable command of these sources performs no IPC
at all, so the claim "both commands send ReloadGraph after a successful
write" is false. -/
theorem enable_writes_without_reload :
    (enable_run ["a"] { graph_file := none } (.ok ())
        (fun g _ => .ok g)).result = .ok () ∧
      (enable_run ["a"] { graph_file := none } (.ok ())
        (fun g _ => .ok g)).sent_reload = false := by
  exact ⟨rfl, rfl⟩

/-- Claim C4, amended: only the disable command performs IPC.  After the
modified graph is successfully written, `DisableCommand::run` sends a
`ReloadGraph` request when the daemon's socket connects; when it cannot
connect, the failure is reported on stderr, nothing is sent, and the command
still returns success with the file written.  `EnableCommand::run` never
sends any IPC request. -/
theorem reload_sent_only_by_disable (services : List String) (atomic : Bool)
    (rl : RunLevel) (fs : FsState) (graph graph2 : DependencyGraph)
    (send_result : Except CmdError Unit) (parse_result : Except CmdError Unit)
    (add_services : DependencyGraph → List String →
      Except CmdError DependencyGraph)
    (hdup : duplicated_service_scan services = false)
    (hfile : fs.graph_file = some graph)
    (happly : disable_apply graph services atomic rl = .ok graph2) :
    (disable_run services atomic rl fs true send_result).sent_reload = true ∧
      ((disable_run services atomic rl fs false send_result).result = .ok () ∧
        (disable_run services atomic rl fs false send_result).stderr_unreachable
          = true ∧
        (disable_run services atomic rl fs false send_result).sent_reload
          = false ∧
        (disable_run services atomic rl fs false send_result).fs
          = { graph_file := some graph2 }) ∧
      (enable_run services fs parse_result add_services).sent_reload = false := by
  refine ⟨?_, ⟨?_, ?_, ?_, ?_⟩,
    enable_run_never_sends services fs parse_result add_services⟩ <;>
    · unfold disable_run
      rw [hdup]
      simp only [Bool.false_eq_true, if_false]
      cases hsend : send_result <;> simp [hfile, happly, hsend]

/-- Witness for the amended claim C4 at a concrete graph holding one service
`a` of runlevel `default`. -/
theorem reload_sent_only_by_disable_witness :
    (disable_run ["a"] true "default"
        { graph_file := some { nodes := [("a", { runlevel := "default" })] } }
        true (.ok ())).sent_reload = true :=
  (reload_sent_only_by_disable ["a"] true "default"
    { graph_file := some { nodes := [("a", { runlevel := "default" })] } }
    { nodes := [("a", { runlevel := "default" })] } { nodes := [] }
    (.ok ()) (.ok ()) (fun g _ => .ok g) rfl rfl rfl).1

/-- Claim C5: with `--atomic-changes`, when any requested service is absent
from the graph or carries a runlevel different from the requested one,
`DisableCommand::run` returns an error and the persisted graph file is left
unchanged — the check loop runs before `disable_services` and before the
file write, so none of the requested removals is applied. -/
theorem atomic_disable_error_leaves_file (services : List String)
    (rl : RunLevel) (fs : FsState) (graph : DependencyGraph)
    (can_connect : Bool) (send_result : Except CmdError Unit)
    (hfile : fs.graph_file = some graph)
    (hbad : ∃ s ∈ services, graph.nodesGet s = none ∨
      ∃ n, graph.nodesGet s = some n ∧ n.runlevel ≠ rl) :
    (disable_run services true rl fs can_connect send_result).result.isOk
        = false ∧
      (disable_run services true rl fs can_connect send_result).fs = fs := by
  have hchk := check_services_error_of_bad graph rl services hbad
  unfold disable_run
  cases hscan : duplicated_service_scan services with
  | true => simp [Except.isOk, Except.toBool]
  | false =>
    simp only [Bool.false_eq_true, if_false]
    cases happ : disable_apply graph services true rl with
    | error e => simp [hfile, happ, Except.isOk, Except.toBool]
    | ok g2 =>
      exfalso
      rw [disable_apply] at happ
      simp only [if_true] at happ
      cases hc : check_services graph services rl with
      | error e => rw [hc] at happ; simp at happ
      | ok u => rw [hc] at hchk; simp [Except.isOk, Except.toBool] at hchk

/-- Witness for claim C5: disabling the absent service `b` atomically on a
graph holding only `a` fails and leaves the file unchanged. -/
theorem atomic_disable_error_leaves_file_witness :
    (disable_run ["b"] true "default"
        { graph_file := some { nodes := [("a", { runlevel := "default" })] } }
        true (.ok ())).result.isOk = false :=
  (atomic_disable_error_leaves_file ["b"] "default"
    { graph_file := some { nodes := [("a", { runlevel := "default" })] } }
    { nodes := [("a", { runlevel := "default" })] } true (.ok ()) rfl
    ⟨"b", by simp, Or.inl rfl⟩).1

/-- Claim C6: the scan `(1..len).any(|i| services[i..].contains(
&services[i-1]))` fires exactly when some service name occurs at two
distinct positions, and both commands fail with the duplicated-service
error exactly in that case (their oracles — parse, add, IPC reply — are
assumed not to fabricate that same error value). -/
theorem duplicate_check_iff_repeat (services : List String) (fs : FsState)
    (parse_result : Except CmdError Unit)
    (add_services : DependencyGraph → List String →
      Except CmdError DependencyGraph)
    (atomic : Bool) (rl : RunLevel) (can_connect : Bool)
    (send_result : Except CmdError Unit)
    (hp : parse_result ≠ .error .duplicatedService)
    (ha : ∀ g, add_services g services ≠ .error .duplicatedService)
    (hs : send_result ≠ .error .duplicatedService) :
    (duplicated_service_scan services = true ↔ ¬ services.Nodup) ∧
      ((enable_run services fs parse_result add_services).result
        = .error .duplicatedService ↔ ¬ services.Nodup) ∧
      ((disable_run services atomic rl fs can_connect send_result).result
        = .error .duplicatedService ↔ ¬ services.Nodup) := by
  refine ⟨duplicated_service_scan_iff services, ?_, ?_⟩ <;>
    rw [← duplicated_service_scan_iff services]
  · constructor
    · intro hres
      cases hscan : duplicated_service_scan services with
      | true => rfl
      | false =>
        exact absurd hres
          (enable_run_no_dup_error services fs parse_result add_services
            hscan hp ha)
    · intro hscan
      exact (commands_dup_error_of_scan services fs parse_result add_services
        atomic rl can_connect send_result hscan).1
  · constructor
    · intro hres
      cases hscan : duplicated_service_scan services with
      | true => rfl
      | false =>
        exact absurd hres
          (disable_run_no_dup_error services atomic rl fs can_connect
            send_result hscan hs)
    · intro hscan
      exact (commands_dup_error_of_scan services fs parse_result add_services
        atomic rl can_connect send_result hscan).2

/-- Witness for claim C6 on the duplicated list `["a", "a"]`. -/
theorem duplicate_check_iff_repeat_witness :
    duplicated_service_scan ["a", "a"] = true ↔ ¬ ["a", "a"].Nodup :=
  (duplicate_check_iff_repeat ["a", "a"] { graph_file := none } (.ok ())
    (fun g _ => .ok g) true "default" true (.ok ())
    (fun h => nomatch h) (fun _ h => nomatch h) (fun h => nomatch h)).1

/-- Claim C9: when the persisted graph file does not exist,
`EnableCommand::run` proceeds from the empty dependency graph, creates the
file's parent directory and writes the new graph (returning success), while
`DisableCommand::run` fails immediately with the graph-not-initialized
error and changes nothing. -/
theorem missing_graph_file_behavior (services : List String)
    (graph2 : DependencyGraph)
    (add_services : DependencyGraph → List String →
      Except CmdError DependencyGraph)
    (atomic : Bool) (rl : RunLevel) (can_connect : Bool)
    (send_result : Except CmdError Unit)
    (hdup : duplicated_service_scan services = false)
    (hadd : add_services DependencyGraph.new services = .ok graph2) :
    enable_run services { graph_file := none } (.ok ()) add_services
        = { result := .ok (), fs := { graph_file := some graph2 }
            sent_reload := false, stderr_unreachable := false
            created_parent_dir := true } ∧
      disable_run services atomic rl { graph_file := none } can_connect
          send_result
        = { result := .error .graphNotInitialized
            fs := { graph_file := none }, sent_reload := false
            stderr_unreachable := false, created_parent_dir := false } := by
  constructor
  · unfold enable_run
    rw [hdup]
    simp [hadd]
  · unfold disable_run
    rw [hdup]
    simp

/-- Witness for claim C9 with the single service `a`. -/
theorem missing_graph_file_behavior_witness :
    disable_run ["a"] true "default" { graph_file := none } true (.ok ())
      = { result := .error .graphNotInitialized, fs := { graph_file := none }
          sent_reload := false, stderr_unreachable := false
          created_parent_dir := false } :=
  (missing_graph_file_behavior ["a"] { nodes := [] } (fun _ _ => .ok { nodes := [] })
    true "default" true (.ok ()) rfl rfl).2

/-- Claim C10: every call to `LiveService::change_status` — including one
that sets a status equal to the current one (take `new_status = s.status`) —
updates `status_changed` to the current time and broadcasts on the notifier;
no path skips the timestamp update or the `notify_all`. -/
theorem change_status_always_stamps_and_notifies (s : LiveService)
    (new_status : ServiceStatus) (now : Nat) :
    (s.change_status new_status now).1.status_changed = some now ∧
      (s.change_status new_status now).2 = true := by
  exact ⟨rfl, rfl⟩

/-- Claim C7: with the Path prefix, the executable is the first
whitespace-delimited token of `execute` when that token is all-alphabetic,
and the empty string when the string has no tokens or the first token
contains a non-alphabetic character; the remaining tokens are the arguments,
in order. -/
theorem path_resolution (script : Script) (hpfx : script.pfx = .Path) :
    (split_whitespace script.execute = [] →
      exec_resolve script = ("", [])) ∧
    (∀ w rest, split_whitespace script.execute = w :: rest →
      ((∀ c ∈ w.toList, is_alphabetic c = true) →
        exec_resolve script = (w, rest)) ∧
      ((∃ c ∈ w.toList, is_alphabetic c = false) →
        exec_resolve script = ("", rest))) := by
  constructor
  · intro hnil
    rw [exec_resolve, hpfx, hnil]
  · intro w rest hcons
    constructor
    · intro hall
      have hcond : w.toList.all is_alphabetic = true := List.all_eq_true.mpr hall
      rw [exec_resolve, hpfx, hcons]
      dsimp only []
      rw [if_pos hcond]
    · intro hex
      have hcond : w.toList.all is_alphabetic = false := by
        rcases hex with ⟨c, hc, hcf⟩
        rw [List.all_eq_false]
        exact ⟨c, hc, by simp [hcf]⟩
      rw [exec_resolve, hpfx, hcons]
      dsimp only []
      rw [if_neg (by rw [hcond]; simp)]

/-- Witness for claim C7: `ls -l` resolves to executable `ls` with the
single argument `-l`. -/
theorem path_resolution_witness :
    exec_resolve { pfx := .Path, execute := "ls -l" } = ("ls", ["-l"]) :=
  ((path_resolution { pfx := .Path, execute := "ls -l" } rfl).2
    "ls" ["-l"] (by decide)).1 (by decide)

/-- Claim C8: the child's environment is the process environment merged with
the service environment; for a key in both, the service's value wins; a key
present in only one source keeps that source's value; a key in neither is
absent. -/
theorem env_merge_service_wins (proc_env svc_env : List (String × String))
    (k : String)
    (hproc : (proc_env.map Prod.fst).Nodup)
    (hsvc : (svc_env.map Prod.fst).Nodup) :
    (∀ v, (k, v) ∈ svc_env → merged_env proc_env svc_env k = some v) ∧
      (k ∉ svc_env.map Prod.fst →
        ∀ v, (k, v) ∈ proc_env → merged_env proc_env svc_env k = some v) ∧
      (k ∉ svc_env.map Prod.fst → k ∉ proc_env.map Prod.fst →
        merged_env proc_env svc_env k = none) := by
  have hsplit : ∀ q : String,
      merged_env proc_env svc_env q =
        (svc_env.foldl env_insert (proc_env.foldl env_insert
          (fun _ => none))) q := by
    intro q
    rw [merged_env, collect_env, List.foldl_append]
  refine ⟨?_, ?_, ?_⟩
  · intro v hv
    rw [hsplit]
    exact foldl_env_insert_mem svc_env _ k v hsvc hv
  · intro hks v hv
    rw [hsplit, foldl_env_insert_not_mem svc_env _ k hks]
    exact foldl_env_insert_mem proc_env _ k v hproc hv
  · intro hks hkp
    rw [hsplit, foldl_env_insert_not_mem svc_env _ k hks,
      foldl_env_insert_not_mem proc_env _ k hkp]

/-- Witness for claim C8: with `PATH` bound in both environments, the
service's value wins. -/
theorem env_merge_service_wins_witness :
    merged_env [("PATH", "proc"), ("HOME", "h")] [("PATH", "svc")] "PATH"
      = some "svc" :=
  (env_merge_service_wins [("PATH", "proc"), ("HOME", "h")] [("PATH", "svc")]
    "PATH" (by decide) (by decide)).1 "svc" (by decide)

end Rinit
